import Mathlib

/-!
Verification development for the milling-aggregator repository.

The repository ships a single React client (src/frontend/src/App.js).
The server-side RFQ → Quote → Order → Payment lifecycle described by the
specification is not part of the sources, so it is modelled here from the
specification text; the client-side rendering and request logic is embedded
directly from App.js.
-/

namespace Milling

/-- Modelled from the spec: the error taxonomy of section 7
(ValidationError, NotFoundError, ConflictError). AuthError is resolved
before any core operation runs and is not part of the core model. -/
inductive Err where
  | validation
  | notFound
  | conflict
deriving DecidableEq, Repr

/-- Modelled from the spec: an RFQ entity (section 3). Identifiers and
timestamps are opaque tokens, modelled as naturals drawn from a counter. -/
structure RFQ where
  id : Nat
  owner : String
  material : String
  quantity : Int
  tolerance : String
  roughness : String
  partMarking : Bool
  certification : String
  notes : String
  createdAt : Nat
deriving DecidableEq, Repr

/-- Modelled from the spec: a Quote entity (section 3); status is one of
"open", "accepted", "rejected-by-supersede". Price is an exact integer
number of currency minor units. -/
structure Quote where
  id : Nat
  rfqId : Nat
  supplierName : String
  price : Int
  leadTimeDays : Int
  notes : String
  status : String
  createdAt : Nat
deriving DecidableEq, Repr

/-- Modelled from the spec: an Order entity (section 3); status is one of
"pending_payment", "paid", "cancelled". -/
structure Order where
  id : Nat
  rfqId : Nat
  quoteId : Nat
  status : String
  createdAt : Nat
deriving DecidableEq, Repr

/-- Modelled from the spec: a Payment entity (section 3); status is always
"recorded". -/
structure Payment where
  id : Nat
  orderId : Nat
  amount : Int
  status : String
  createdAt : Nat
deriving DecidableEq, Repr

/-- Modelled from the spec: the shared persisted state holding the four
entity stores (section 5), plus the counter from which fresh identifiers
and timestamps are drawn. -/
structure St where
  rfqs : List RFQ
  quotes : List Quote
  orders : List Order
  payments : List Payment
  next : Nat
deriving DecidableEq, Repr

/-- The empty initial state. -/
def St.init : St := ⟨[], [], [], [], 0⟩

/-- The recognized material catalog; the concrete values come from the
client's material selector in App.js (lines 203-208). -/
def materialCatalog : List String :=
  ["Aluminum 6061", "Aluminum 7075", "Steel 304", "Steel 316", "Brass", "Titanium"]

/-- The recognized certification set (spec section 6 and the client's
certification selector in App.js, lines 237-239). -/
def certificationSet : List String := ["None", "ISO 9001", "AS9100"]

/-- Modelled from the spec: the field payload of an RFQ submission
(section 4.1), before an identifier and timestamp are assigned. -/
structure RFQSpec where
  material : String
  quantity : Int
  tolerance : String
  roughness : String
  partMarking : Bool
  certification : String
  notes : String
deriving DecidableEq, Repr

/-- Modelled from the spec: RFQ Store submit (section 4.1). Validates
quantity ≥ 1, material in the recognized catalog, certification in the
recognized set; assigns identifier and timestamp; persists. Fails with
ValidationError on malformed fields, persisting nothing. -/
def submit (s : St) (owner : String) (sp : RFQSpec) : Except Err RFQ × St :=
  if 1 ≤ sp.quantity ∧ sp.material ∈ materialCatalog ∧ sp.certification ∈ certificationSet then
    let r : RFQ :=
      { id := s.next, owner := owner, material := sp.material, quantity := sp.quantity,
        tolerance := sp.tolerance, roughness := sp.roughness, partMarking := sp.partMarking,
        certification := sp.certification, notes := sp.notes, createdAt := s.next }
    (.ok r, { s with rfqs := s.rfqs ++ [r], next := s.next + 1 })
  else
    (.error .validation, s)

/-- Modelled from the spec: Quote Store submitQuote (section 4.2). Fails
with NotFoundError if the RFQ does not resolve, ValidationError if price
or lead time is negative; new quotes always start "open". -/
def submitQuote (s : St) (rfqId : Nat) (supplier : String) (price leadTimeDays : Int)
    (notes : String) : Except Err Quote × St :=
  match s.rfqs.find? (fun r => r.id == rfqId) with
  | none => (.error .notFound, s)
  | some _ =>
    if price < 0 ∨ leadTimeDays < 0 then
      (.error .validation, s)
    else
      let q : Quote :=
        { id := s.next, rfqId := rfqId, supplierName := supplier, price := price,
          leadTimeDays := leadTimeDays, notes := notes, status := "open", createdAt := s.next }
      (.ok q, { s with quotes := s.quotes ++ [q], next := s.next + 1 })

/-- The status rewrite applied to every stored quote when the quote with
identifier matching `q` is accepted: that quote becomes "accepted", every
other still-"open" quote on the same RFQ becomes "rejected-by-supersede". -/
def acceptUpdate (q : Quote) (p : Quote) : Quote :=
  if p.id == q.id then { p with status := "accepted" }
  else if p.rfqId == q.rfqId && p.status == "open" then { p with status := "rejected-by-supersede" }
  else p

/-- Modelled from the spec: Order Lifecycle Manager acceptQuote
(section 4.3). Resolves the quote (NotFoundError if absent), rejects a
non-"open" quote with ConflictError, otherwise atomically accepts the
quote, supersedes sibling open quotes, and creates one Order in
"pending_payment" referencing the RFQ and the quote. The caller identity
is received but not consulted by the transition steps. -/
def acceptQuote (s : St) (_caller : String) (quoteId : Nat) : Except Err Order × St :=
  match s.quotes.find? (fun p => p.id == quoteId) with
  | none => (.error .notFound, s)
  | some q =>
    if q.status ≠ "open" then
      (.error .conflict, s)
    else
      let o : Order :=
        { id := s.next, rfqId := q.rfqId, quoteId := q.id, status := "pending_payment",
          createdAt := s.next }
      (.ok o,
        { s with quotes := s.quotes.map (acceptUpdate q), orders := s.orders ++ [o],
                 next := s.next + 1 })

/-- Modelled from the spec: Payment Recorder pay (section 4.4). Resolves
the order (NotFoundError if absent), rejects a non-"pending_payment" order
with ConflictError, otherwise atomically creates a Payment whose amount is
the associated quote's price with status "recorded" and sets the order to
"paid". The caller identity is received but not consulted. -/
def pay (s : St) (_caller : String) (orderId : Nat) : Except Err Payment × St :=
  match s.orders.find? (fun o => o.id == orderId) with
  | none => (.error .notFound, s)
  | some o =>
    if o.status ≠ "pending_payment" then
      (.error .conflict, s)
    else
      match s.quotes.find? (fun q => q.id == o.quoteId) with
      | none => (.error .notFound, s)
      | some q =>
        let p : Payment :=
          { id := s.next, orderId := o.id, amount := q.price, status := "recorded",
            createdAt := s.next }
        (.ok p,
          { s with orders := s.orders.map (fun x => if x.id == o.id then { x with status := "paid" } else x),
                   payments := s.payments ++ [p], next := s.next + 1 })

/-- A state is reachable when it arises from the empty state by any
sequence of the four core operations (with arbitrary arguments); failed
operations leave the state unchanged, so only the resulting states are
recorded. Orders enter the state only through the acceptQuote transition. -/
inductive Reachable : St → Prop where
  | init : Reachable St.init
  | submit {s : St} (owner : String) (sp : RFQSpec) :
      Reachable s → Reachable (submit s owner sp).2
  | submitQuote {s : St} (rfqId : Nat) (supplier : String) (price leadTimeDays : Int)
      (notes : String) :
      Reachable s → Reachable (submitQuote s rfqId supplier price leadTimeDays notes).2
  | acceptQuote {s : St} (caller : String) (quoteId : Nat) :
      Reachable s → Reachable (acceptQuote s caller quoteId).2
  | pay {s : St} (caller : String) (orderId : Nat) :
      Reachable s → Reachable (pay s caller orderId).2

/-- The number of stored orders referencing the quote with the given
identifier. -/
def countOrdersFor (l : List Order) (qid : Nat) : Nat :=
  l.countP (fun o => o.quoteId == qid)

/-- The number of quotes on the given RFQ whose status is "accepted". -/
def acceptedCountRfq (s : St) (rid : Nat) : Nat :=
  (s.quotes.filter (fun q => q.rfqId == rid && q.status == "accepted")).length

/-- The number of orders referencing the given RFQ. -/
def orderCountRfq (s : St) (rid : Nat) : Nat :=
  (s.orders.filter (fun o => o.rfqId == rid)).length

/-- The per-RFQ uniqueness property asserted by the specification: at most
one accepted quote and at most one order per RFQ. -/
def PerRfqUnique (s : St) : Prop :=
  ∀ r ∈ s.rfqs, acceptedCountRfq s r.id ≤ 1 ∧ orderCountRfq s r.id ≤ 1

instance (s : St) : Decidable (PerRfqUnique s) := by
  unfold PerRfqUnique
  infer_instance

/-- The RFQ submission used in the concrete lifecycle trace below. -/
def rfqSpec0 : RFQSpec :=
  { material := "Aluminum 6061", quantity := 10, tolerance := "", roughness := "",
    partMarking := false, certification := "None", notes := "" }

/-- Trace state: one valid RFQ submitted (RFQ id 0). -/
def s1 : St := (submit St.init "buyer" rfqSpec0).2

/-- Trace state: one open quote (id 1) on RFQ 0. -/
def s2 : St := (submitQuote s1 0 "Supplier A" 12000 5 "").2

/-- Trace state: quote 1 accepted, order 2 created in pending_payment. -/
def s3 : St := (acceptQuote s2 "buyer" 1).2

/-- Trace state: a second quote (id 3) submitted on RFQ 0 after quote 1
was already accepted. -/
def s4 : St := (submitQuote s3 0 "Supplier B" 9950 7 "").2

/-- Trace state: the late quote 3 accepted as well, creating a second
accepted quote and a second order (id 4) on RFQ 0. -/
def s5 : St := (acceptQuote s4 "buyer" 3).2

/-- Trace state: order 2 paid (payment id 3 recorded), continuing from s3. -/
def s6 : St := (pay s3 "buyer" 2).2

/-- The stored form of quote 1 while still open (as it appears in s2). -/
def qOpen : Quote :=
  { id := 1, rfqId := 0, supplierName := "Supplier A", price := 12000, leadTimeDays := 5,
    notes := "", status := "open", createdAt := 1 }

/-- The stored form of quote 1 after acceptance (as it appears in s3). -/
def qAcc : Quote :=
  { id := 1, rfqId := 0, supplierName := "Supplier A", price := 12000, leadTimeDays := 5,
    notes := "", status := "accepted", createdAt := 1 }

/-- The stored form of order 2 while pending payment (as it appears in s3). -/
def ordPend : Order :=
  { id := 2, rfqId := 0, quoteId := 1, status := "pending_payment", createdAt := 2 }

/-- The stored form of order 2 after payment (as it appears in s6). -/
def ordPaid : Order :=
  { id := 2, rfqId := 0, quoteId := 1, status := "paid", createdAt := 2 }

/-- An order as fetched and read by the Orders view of the client
(App.js, function Orders): identifier, RFQ and quote references, and the
status string. -/
structure OrderView where
  id : String
  rfqId : String
  quoteId : String
  status : String
deriving DecidableEq, Repr

/-- A quote as fetched and read by the Offers view of the client
(App.js, function Offers). -/
structure QuoteView where
  id : String
  rfqId : String
  supplierName : String
  price : Int
  leadTimeDays : Int
  notes : String
  status : String
deriving DecidableEq, Repr

/-- A rendered row of the Orders table (App.js lines 411-424): the status
cell and, when present, the order identifier the "Pay now" button posts
to. Embeds line 421: the button is rendered exactly when
o.status === "pending_payment". -/
structure OrderRow where
  idCell : String
  statusCell : String
  payAction : Option String
deriving DecidableEq, Repr

/-- Embedding of the Orders row renderer (App.js lines 414-423). -/
def renderOrderRow (o : OrderView) : OrderRow :=
  { idCell := o.id, statusCell := o.status,
    payAction := if o.status == "pending_payment" then some o.id else none }

/-- The order identifiers for which the rendered Orders view offers a pay
request (the only call site of the client pay function is the rendered
button). -/
def ordersPayTargets (os : List OrderView) : List String :=
  (os.map renderOrderRow).filterMap (fun row => row.payAction)

/-- A rendered row of the Offers table (App.js lines 318-330): the
supplier cell and the quote identifier the Accept button posts to. -/
structure OfferRow where
  supplierCell : String
  acceptAction : Option String
deriving DecidableEq, Repr

/-- Embedding of the Offers row renderer (App.js lines 320-328): the
Accept button is rendered unconditionally, for every quote in the list. -/
def renderOfferRow (q : QuoteView) : OfferRow :=
  { supplierCell := q.supplierName, acceptAction := some q.id }

/-- The quote identifiers for which the rendered Offers view offers an
accept request. -/
def offersAcceptTargets (qs : List QuoteView) : List String :=
  (qs.map renderOfferRow).filterMap (fun row => row.acceptAction)

/-- The part of an axios request configuration the interceptor can see:
the Authorization header is kept apart from the rest. -/
structure RequestConfig where
  url : String
  method : String
  body : String
  authorization : Option String
  otherHeaders : List (String × String)
deriving DecidableEq, Repr

/-- Embedding of the axios request interceptor (App.js lines 22-26): when
a token is in local storage the Authorization header is set to
"Bearer " followed by the token; otherwise the configuration is returned
unchanged. -/
def requestInterceptor (token : Option String) (c : RequestConfig) : RequestConfig :=
  match token with
  | some t => { c with authorization := some ("Bearer " ++ t) }
  | none => c

/-- A sample Orders view entry in pending_payment. -/
def owPending : OrderView :=
  { id := "o1", rfqId := "r1", quoteId := "q1", status := "pending_payment" }

/-- A sample Orders view entry already paid. -/
def owPaid : OrderView :=
  { id := "o2", rfqId := "r1", quoteId := "q2", status := "paid" }

/-- A sample fetched order list. -/
def osSample : List OrderView := [owPending, owPaid]

/-- A sample request configuration as built by the client call sites,
which never preset an Authorization header. -/
def cfg0 : RequestConfig :=
  { url := "/api/rfqs", method := "POST", body := "",
    authorization := none, otherHeaders := [("Content-Type", "multipart/form-data")] }

/-- The inductive invariant of the lifecycle state machine: quote
identifiers are fresh and distinct, every order references an accepted
quote, every accepted quote is referenced by exactly one order, and every
non-accepted quote by none. -/
structure StrongInv (s : St) : Prop where
  quotesLt : ∀ q ∈ s.quotes, q.id < s.next
  quotesNodup : (s.quotes.map (fun q => q.id)).Nodup
  ordersRef : ∀ o ∈ s.orders, ∃ q, q ∈ s.quotes ∧ q.id = o.quoteId ∧ q.status = "accepted"
  acceptedOne : ∀ q ∈ s.quotes, q.status = "accepted" → countOrdersFor s.orders q.id = 1
  otherZero : ∀ q ∈ s.quotes, q.status ≠ "accepted" → countOrdersFor s.orders q.id = 0

lemma countOrdersFor_append (l₁ l₂ : List Order) (qid : Nat) :
    countOrdersFor (l₁ ++ l₂) qid = countOrdersFor l₁ qid + countOrdersFor l₂ qid := by
  simp [countOrdersFor, List.countP_append]

lemma countOrdersFor_singleton (o : Order) (qid : Nat) :
    countOrdersFor [o] qid = if o.quoteId = qid then 1 else 0 := by
  simp [countOrdersFor, List.countP_cons]

lemma countOrdersFor_map (g : Order → Order) (hg : ∀ o, (g o).quoteId = o.quoteId)
    (l : List Order) (qid : Nat) :
    countOrdersFor (l.map g) qid = countOrdersFor l qid := by
  unfold countOrdersFor
  rw [List.countP_map]
  congr 1
  funext o
  simp [hg]

lemma countOrdersFor_eq_zero {l : List Order} {qid : Nat} :
    countOrdersFor l qid = 0 ↔ ∀ o ∈ l, o.quoteId ≠ qid := by
  simp [countOrdersFor, List.countP_eq_zero]

lemma strongInv_init : StrongInv St.init := by
  constructor <;> simp [St.init]

lemma strongInv_submit {s : St} (h : StrongInv s) (owner : String) (sp : RFQSpec) :
    StrongInv (submit s owner sp).2 := by
  unfold submit
  split
  · exact {
      quotesLt := fun q hq => Nat.lt_succ_of_lt (h.quotesLt q hq)
      quotesNodup := h.quotesNodup
      ordersRef := h.ordersRef
      acceptedOne := h.acceptedOne
      otherZero := h.otherZero }
  · exact h

lemma strongInv_addQuote {s : St} (h : StrongInv s) (qNew : Quote)
    (hid : qNew.id = s.next) (hst : qNew.status = "open") :
    StrongInv { s with quotes := s.quotes ++ [qNew], next := s.next + 1 } := by
  refine { quotesLt := ?_, quotesNodup := ?_, ordersRef := ?_, acceptedOne := ?_, otherZero := ?_ }
  · intro q hq
    rcases List.mem_append.mp hq with hq | hq
    · exact Nat.lt_succ_of_lt (h.quotesLt q hq)
    · simp only [List.mem_singleton] at hq
      subst hq
      simp [hid]
  · show (List.map (fun q => q.id) (s.quotes ++ [qNew])).Nodup
    rw [List.map_append, List.nodup_append]
    refine ⟨h.quotesNodup, List.nodup_singleton _, ?_⟩
    intro a ha hb
    simp only [List.map_cons, List.map_nil, List.mem_singleton] at hb
    rcases List.mem_map.mp ha with ⟨q, hq, rfl⟩
    exact absurd (h.quotesLt q hq) (by simp [hb, hid])
  · intro o ho
    rcases h.ordersRef o ho with ⟨q, hq, hqid, hacc⟩
    exact ⟨q, List.mem_append.mpr (Or.inl hq), hqid, hacc⟩
  · intro q hq hacc
    rcases List.mem_append.mp hq with hq | hq
    · exact h.acceptedOne q hq hacc
    · simp only [List.mem_singleton] at hq
      subst hq
      rw [hst] at hacc
      exact absurd hacc (by decide)
  · intro q hq hne
    rcases List.mem_append.mp hq with hq | hq
    · exact h.otherZero q hq hne
    · simp only [List.mem_singleton] at hq
      subst hq
      refine countOrdersFor_eq_zero.mpr ?_
      intro o ho
      rcases h.ordersRef o ho with ⟨p, hp, hpid, _⟩
      have := h.quotesLt p hp
      omega

lemma acceptUpdate_id (q p : Quote) : (acceptUpdate q p).id = p.id := by
  unfold acceptUpdate
  split
  · rfl
  · split <;> rfl

lemma acceptUpdate_cases (q p : Quote) :
    (p.id = q.id ∧ acceptUpdate q p = { p with status := "accepted" }) ∨
    (p.id ≠ q.id ∧ p.rfqId = q.rfqId ∧ p.status = "open" ∧
      acceptUpdate q p = { p with status := "rejected-by-supersede" }) ∨
    (p.id ≠ q.id ∧ (p.rfqId ≠ q.rfqId ∨ p.status ≠ "open") ∧ acceptUpdate q p = p) := by
  by_cases h1 : p.id = q.id
  · exact Or.inl ⟨h1, by simp [acceptUpdate, h1]⟩
  · by_cases h2 : p.rfqId = q.rfqId
    · by_cases h3 : p.status = "open"
      · exact Or.inr (Or.inl ⟨h1, h2, h3, by simp [acceptUpdate, h1, h2, h3]⟩)
      · exact Or.inr (Or.inr ⟨h1, Or.inr h3, by simp [acceptUpdate, h1, h3]⟩)
    · exact Or.inr (Or.inr ⟨h1, Or.inl h2, by simp [acceptUpdate, h1, h2]⟩)

lemma strongInv_accepted {s : St} (h : StrongInv s) {q : Quote}
    (hq : q ∈ s.quotes) (hopen : q.status = "open") :
    StrongInv { s with
      quotes := s.quotes.map (acceptUpdate q),
      orders := s.orders ++
        [{ id := s.next, rfqId := q.rfqId, quoteId := q.id, status := "pending_payment",
           createdAt := s.next }],
      next := s.next + 1 } := by
  have inj : ∀ a ∈ s.quotes, ∀ b ∈ s.quotes, a.id = b.id → a = b := by
    intro a ha b hb hab
    exact List.inj_on_of_nodup_map h.quotesNodup ha hb hab
  refine { quotesLt := ?_, quotesNodup := ?_, ordersRef := ?_, acceptedOne := ?_, otherZero := ?_ }
  · intro p' hp'
    rcases List.mem_map.mp hp' with ⟨p, hp, rfl⟩
    rw [acceptUpdate_id]
    exact Nat.lt_succ_of_lt (h.quotesLt p hp)
  · show (List.map (fun q => q.id) (s.quotes.map (acceptUpdate q))).Nodup
    rw [List.map_map]
    have : ((fun q => q.id) ∘ acceptUpdate q) = fun p : Quote => p.id := by
      funext p
      exact acceptUpdate_id q p
    rw [this]
    exact h.quotesNodup
  · intro o ho
    rcases List.mem_append.mp ho with ho | ho
    · rcases h.ordersRef o ho with ⟨p, hp, hpid, hacc⟩
      refine ⟨acceptUpdate q p, List.mem_map.mpr ⟨p, hp, rfl⟩, ?_, ?_⟩
      · rw [acceptUpdate_id]; exact hpid
      · rcases acceptUpdate_cases q p with ⟨_, he⟩ | ⟨_, _, hop, _⟩ | ⟨_, _, he⟩
        · rw [he]
        · rw [hop] at hacc; exact absurd hacc (by decide)
        · rw [he]; exact hacc
    · simp only [List.mem_singleton] at ho
      subst ho
      refine ⟨{ q with status := "accepted" }, List.mem_map.mpr ⟨q, hq, ?_⟩, rfl, rfl⟩
      simp [acceptUpdate]
  · intro p' hp' hacc
    rcases List.mem_map.mp hp' with ⟨p, hp, rfl⟩
    rw [countOrdersFor_append, countOrdersFor_singleton, acceptUpdate_id]
    rcases acceptUpdate_cases q p with ⟨hid, he⟩ | ⟨hid, _, hop, he⟩ | ⟨hid, _, he⟩
    · have hpq : p = q := inj p hp q hq hid
      subst hpq
      rw [h.otherZero p hp (by rw [hopen]; decide), if_pos hid.symm]
    · have hx : ("rejected-by-supersede" : String) = "accepted" := by
        rw [he] at hacc
        exact hacc
      exact absurd hx (by decide)
    · rw [he] at hacc
      rw [h.acceptedOne p hp hacc, if_neg (fun hc => hid hc.symm)]
  · intro p' hp' hne
    rcases List.mem_map.mp hp' with ⟨p, hp, rfl⟩
    rw [countOrdersFor_append, countOrdersFor_singleton, acceptUpdate_id]
    rcases acceptUpdate_cases q p with ⟨_, he⟩ | ⟨hid, _, hop, _⟩ | ⟨hid, _, he⟩
    · rw [he] at hne
      exact absurd rfl hne
    · rw [h.otherZero p hp (by rw [hop]; decide), if_neg (fun hc => hid hc.symm)]
    · rw [he] at hne
      rw [h.otherZero p hp hne, if_neg (fun hc => hid hc.symm)]

lemma strongInv_acceptQuote {s : St} (h : StrongInv s) (caller : String) (quoteId : Nat) :
    StrongInv (acceptQuote s caller quoteId).2 := by
  unfold acceptQuote
  cases hf : s.quotes.find? (fun p => p.id == quoteId) with
  | none => exact h
  | some q =>
    by_cases hst : q.status = "open"
    · simp only [if_neg (fun hc : q.status ≠ "open" => hc hst)]
      exact strongInv_accepted h (List.mem_of_find?_eq_some hf) hst
    · simp only [if_pos hst]
      exact h

lemma strongInv_submitQuote {s : St} (h : StrongInv s) (rfqId : Nat) (supplier : String)
    (price leadTimeDays : Int) (notes : String) :
    StrongInv (submitQuote s rfqId supplier price leadTimeDays notes).2 := by
  unfold submitQuote
  cases hf : s.rfqs.find? (fun r => r.id == rfqId) with
  | none => exact h
  | some r =>
    by_cases hv : price < 0 ∨ leadTimeDays < 0
    · simp only [if_pos hv]
      exact h
    · simp only [if_neg hv]
      exact strongInv_addQuote h _ rfl rfl

lemma payUpdate_quoteId (o x : Order) :
    (if x.id == o.id then { x with status := "paid" } else x).quoteId = x.quoteId := by
  split <;> rfl

lemma strongInv_paid {s : St} (h : StrongInv s) (o : Order) (pm : Payment) :
    StrongInv { s with
      orders := s.orders.map (fun x => if x.id == o.id then { x with status := "paid" } else x),
      payments := s.payments ++ [pm],
      next := s.next + 1 } := by
  refine { quotesLt := ?_, quotesNodup := ?_, ordersRef := ?_, acceptedOne := ?_, otherZero := ?_ }
  · intro q hq
    exact Nat.lt_succ_of_lt (h.quotesLt q hq)
  · exact h.quotesNodup
  · intro o' ho'
    rcases List.mem_map.mp ho' with ⟨x, hx, rfl⟩
    rcases h.ordersRef x hx with ⟨p, hp, hpid, hacc⟩
    refine ⟨p, hp, ?_, hacc⟩
    rw [payUpdate_quoteId]
    exact hpid
  · intro q hq hacc
    rw [countOrdersFor_map _ (payUpdate_quoteId o)]
    exact h.acceptedOne q hq hacc
  · intro q hq hne
    rw [countOrdersFor_map _ (payUpdate_quoteId o)]
    exact h.otherZero q hq hne

lemma strongInv_pay {s : St} (h : StrongInv s) (caller : String) (orderId : Nat) :
    StrongInv (pay s caller orderId).2 := by
  unfold pay
  cases hf : s.orders.find? (fun o => o.id == orderId) with
  | none => exact h
  | some o =>
    by_cases hst : o.status = "pending_payment"
    · simp only [if_neg (fun hc : o.status ≠ "pending_payment" => hc hst)]
      cases hq : s.quotes.find? (fun q => q.id == o.quoteId) with
      | none => exact h
      | some q => exact strongInv_paid h o _
    · simp only [if_pos hst]
      exact h

/-- Every reachable state of the lifecycle satisfies the inductive
invariant. -/
lemma reachable_strongInv : ∀ s : St, Reachable s → StrongInv s := by
  intro s h
  induction h with
  | init => exact strongInv_init
  | submit owner sp _ ih => exact strongInv_submit ih owner sp
  | submitQuote rfqId supplier price leadTimeDays notes _ ih =>
      exact strongInv_submitQuote ih rfqId supplier price leadTimeDays notes
  | acceptQuote caller quoteId _ ih => exact strongInv_acceptQuote ih caller quoteId
  | pay caller orderId _ ih => exact strongInv_pay ih caller orderId

lemma submit_orders (s : St) (owner : String) (sp : RFQSpec) :
    (submit s owner sp).2.orders = s.orders := by
  unfold submit
  split <;> rfl

lemma submitQuote_orders (s : St) (rfqId : Nat) (supplier : String) (price leadTimeDays : Int)
    (notes : String) :
    (submitQuote s rfqId supplier price leadTimeDays notes).2.orders = s.orders := by
  unfold submitQuote
  cases hf : s.rfqs.find? (fun r => r.id == rfqId) with
  | none => rfl
  | some r =>
    by_cases hv : price < 0 ∨ leadTimeDays < 0
    · simp only [if_pos hv]
    · simp only [if_neg hv]

lemma pay_orders_skeleton (s : St) (caller : String) (orderId : Nat) :
    ((pay s caller orderId).2.orders).map (fun o => (o.id, o.rfqId, o.quoteId)) =
      s.orders.map (fun o => (o.id, o.rfqId, o.quoteId)) := by
  unfold pay
  cases hf : s.orders.find? (fun o => o.id == orderId) with
  | none => rfl
  | some o =>
    by_cases hst : o.status = "pending_payment"
    · simp only [if_neg (fun hc : o.status ≠ "pending_payment" => hc hst)]
      cases hq : s.quotes.find? (fun q => q.id == o.quoteId) with
      | none => rfl
      | some q =>
        show (List.map (fun x => if x.id == o.id then { x with status := "paid" } else x)
            s.orders).map (fun o => (o.id, o.rfqId, o.quoteId)) = _
        rw [List.map_map]
        congr 1
        funext x
        show ((if x.id == o.id then { x with status := "paid" } else x).id,
              (if x.id == o.id then { x with status := "paid" } else x).rfqId,
              (if x.id == o.id then { x with status := "paid" } else x).quoteId) =
          (x.id, x.rfqId, x.quoteId)
        split <;> rfl
    · simp only [if_pos hst]

lemma reachable_s3 : Reachable s3 :=
  Reachable.acceptQuote "buyer" 1
    (Reachable.submitQuote 0 "Supplier A" 12000 5 ""
      (Reachable.submit "buyer" rfqSpec0 Reachable.init))

lemma reachable_s5 : Reachable s5 :=
  Reachable.acceptQuote "buyer" 3
    (Reachable.submitQuote 0 "Supplier B" 9950 7 "" reachable_s3)

/-- C1 counterexample: the claimed per-RFQ uniqueness fails on a reachable
state. After quote 1 on RFQ 0 is accepted, a further quote can still be
submitted to RFQ 0 (submitQuote only requires the RFQ to resolve and the
numbers to be non-negative) and is created "open", so a second acceptQuote
succeeds: state s5 is reachable and carries two accepted quotes and two
orders on RFQ 0. -/
theorem per_rfq_uniqueness_fails :
    Reachable s5 ∧ acceptedCountRfq s5 0 = 2 ∧ orderCountRfq s5 0 = 2 ∧ ¬ PerRfqUnique s5 :=
  ⟨reachable_s5, by decide, by decide, by decide⟩

/-- C1 amended: in every reachable state, every accepted quote is
referenced by exactly one order, every non-accepted quote by none, and
every order references an accepted quote; orders are created only by the
accept-quote transition (the other three operations leave the stored
orders untouched, pay changing only an order status). The per-RFQ bounds
of the original claim do not hold (see the counterexample). -/
theorem accepted_quote_order_correspondence (s : St) (hr : Reachable s) :
    (∀ q, q ∈ s.quotes → q.status = "accepted" → countOrdersFor s.orders q.id = 1) ∧
    (∀ q, q ∈ s.quotes → q.status ≠ "accepted" → countOrdersFor s.orders q.id = 0) ∧
    (∀ o, o ∈ s.orders → ∃ q, q ∈ s.quotes ∧ q.id = o.quoteId ∧ q.status = "accepted") ∧
    (∀ owner sp, (submit s owner sp).2.orders = s.orders) ∧
    (∀ rfqId supplier price leadTimeDays notes,
      (submitQuote s rfqId supplier price leadTimeDays notes).2.orders = s.orders) ∧
    (∀ caller orderId,
      ((pay s caller orderId).2.orders).map (fun o => (o.id, o.rfqId, o.quoteId)) =
        s.orders.map (fun o => (o.id, o.rfqId, o.quoteId))) := by
  have hi := reachable_strongInv s hr
  exact ⟨hi.acceptedOne, hi.otherZero, hi.ordersRef, submit_orders s,
    submitQuote_orders s, pay_orders_skeleton s⟩

/-- Witness for the amended C1 theorem at the concrete reachable state s3:
the accepted quote 1 is referenced by exactly one order. -/
theorem accepted_quote_order_correspondence_witness :
    Reachable s3 ∧ countOrdersFor s3.orders 1 = 1 :=
  ⟨reachable_s3,
    (accepted_quote_order_correspondence s3 reachable_s3).1 qAcc (by decide) (by decide)⟩

/-- C2: acceptQuote on a quote whose status is not "open" returns
ConflictError for any caller, creates no order, and leaves the stored
state unchanged. -/
theorem acceptQuote_nonopen_conflict (s : St) (caller : String) (quoteId : Nat) (q : Quote)
    (hf : s.quotes.find? (fun p => p.id == quoteId) = some q)
    (hs : q.status ≠ "open") :
    acceptQuote s caller quoteId = (Except.error Err.conflict, s) := by
  simp only [acceptQuote, hf]
  rw [if_pos hs]

/-- Witness for C2: re-accepting the already-accepted quote 1 in state s3
yields ConflictError and the unchanged state. -/
theorem acceptQuote_nonopen_conflict_witness :
    (s3.quotes.find? (fun p => p.id == 1) = some qAcc) ∧
    qAcc.status ≠ "open" ∧
    acceptQuote s3 "anyone" 1 = (Except.error Err.conflict, s3) :=
  ⟨by decide, by decide, acceptQuote_nonopen_conflict s3 "anyone" 1 qAcc (by decide) (by decide)⟩

/-- C3: a successful acceptQuote on an "open" quote marks that quote
"accepted", marks every other still-"open" quote of the same RFQ
"rejected-by-supersede", leaves quotes outside that set unchanged, appends
exactly one new order in "pending_payment" referencing the RFQ and the
quote, and afterwards no quote of that RFQ is "open". -/
theorem acceptQuote_open_success (s : St) (caller : String) (quoteId : Nat) (q : Quote)
    (hf : s.quotes.find? (fun p => p.id == quoteId) = some q)
    (hs : q.status = "open") :
    ∃ o : Order,
      (acceptQuote s caller quoteId).1 = Except.ok o ∧
      o.status = "pending_payment" ∧ o.rfqId = q.rfqId ∧ o.quoteId = q.id ∧
      (acceptQuote s caller quoteId).2.orders = s.orders ++ [o] ∧
      (acceptQuote s caller quoteId).2.rfqs = s.rfqs ∧
      (acceptQuote s caller quoteId).2.payments = s.payments ∧
      ({ q with status := "accepted" } : Quote) ∈ (acceptQuote s caller quoteId).2.quotes ∧
      (∀ p, p ∈ s.quotes → p.id ≠ q.id → p.rfqId = q.rfqId → p.status = "open" →
        ({ p with status := "rejected-by-supersede" } : Quote) ∈
          (acceptQuote s caller quoteId).2.quotes) ∧
      (∀ p, p ∈ s.quotes → p.id ≠ q.id → (p.rfqId ≠ q.rfqId ∨ p.status ≠ "open") →
        p ∈ (acceptQuote s caller quoteId).2.quotes) ∧
      (∀ p', p' ∈ (acceptQuote s caller quoteId).2.quotes → p'.rfqId = q.rfqId →
        p'.status ≠ "open") := by
  have hnot : ¬ q.status ≠ "open" := fun hc => hc hs
  have hred : acceptQuote s caller quoteId =
      (Except.ok
        { id := s.next, rfqId := q.rfqId, quoteId := q.id, status := "pending_payment",
          createdAt := s.next },
        { s with quotes := s.quotes.map (acceptUpdate q),
                 orders := s.orders ++
                   [{ id := s.next, rfqId := q.rfqId, quoteId := q.id,
                      status := "pending_payment", createdAt := s.next }],
                 next := s.next + 1 }) := by
    simp only [acceptQuote, hf]
    rw [if_neg hnot]
  refine ⟨{ id := s.next, rfqId := q.rfqId, quoteId := q.id, status := "pending_payment",
            createdAt := s.next },
    by rw [hred], rfl, rfl, rfl, by rw [hred], by rw [hred], by rw [hred], ?_, ?_, ?_, ?_⟩
  · rw [hred]
    exact List.mem_map.mpr ⟨q, List.mem_of_find?_eq_some hf, by simp [acceptUpdate]⟩
  · intro p hp hne hrfq hop
    rw [hred]
    refine List.mem_map.mpr ⟨p, hp, ?_⟩
    rcases acceptUpdate_cases q p with ⟨h1, _⟩ | ⟨_, _, _, he⟩ | ⟨_, hcon, _⟩
    · exact absurd h1 hne
    · exact he
    · rcases hcon with hcon | hcon
      · exact absurd hrfq hcon
      · exact absurd hop hcon
  · intro p hp hne hcon
    rw [hred]
    refine List.mem_map.mpr ⟨p, hp, ?_⟩
    rcases acceptUpdate_cases q p with ⟨h1, _⟩ | ⟨_, h2, h3, _⟩ | ⟨_, _, he⟩
    · exact absurd h1 hne
    · rcases hcon with hcon | hcon
      · exact absurd h2 hcon
      · exact absurd h3 hcon
    · exact he
  · intro p' hp' hrfq
    rw [hred] at hp'
    rcases List.mem_map.mp hp' with ⟨p, hp, rfl⟩
    rcases acceptUpdate_cases q p with ⟨_, he⟩ | ⟨_, _, _, he⟩ | ⟨_, hcon, he⟩
    · intro hc
      rw [he] at hc
      exact absurd (show ("accepted" : String) = "open" from hc) (by decide)
    · intro hc
      rw [he] at hc
      exact absurd (show ("rejected-by-supersede" : String) = "open" from hc) (by decide)
    · rw [he] at hrfq ⊢
      rcases hcon with hcon | hcon
      · exact absurd hrfq hcon
      · exact hcon

/-- Witness for C3: accepting the open quote 1 in state s2 yields a
pending_payment order. -/
theorem acceptQuote_open_success_witness :
    (s2.quotes.find? (fun p => p.id == 1) = some qOpen) ∧
    qOpen.status = "open" ∧
    (∃ o : Order, (acceptQuote s2 "buyer" 1).1 = Except.ok o ∧ o.status = "pending_payment") :=
  ⟨by decide, by decide, by
    obtain ⟨o, h1, h2, _⟩ := acceptQuote_open_success s2 "buyer" 1 qOpen (by decide) (by decide)
    exact ⟨o, h1, h2⟩⟩

/-- C4: pay on an order in "pending_payment" appends exactly one Payment
whose amount equals the associated quote's price with status "recorded",
and sets that order's status to "paid"; both mutations land in the single
returned state, quotes and RFQs untouched. -/
theorem pay_pending_success (s : St) (caller : String) (orderId : Nat) (o : Order) (q : Quote)
    (ho : s.orders.find? (fun x => x.id == orderId) = some o)
    (hs : o.status = "pending_payment")
    (hq : s.quotes.find? (fun x => x.id == o.quoteId) = some q) :
    ∃ p : Payment,
      (pay s caller orderId).1 = Except.ok p ∧
      p.amount = q.price ∧ p.status = "recorded" ∧ p.orderId = o.id ∧
      (pay s caller orderId).2.payments = s.payments ++ [p] ∧
      (pay s caller orderId).2.orders =
        s.orders.map (fun x => if x.id == o.id then { x with status := "paid" } else x) ∧
      ({ o with status := "paid" } : Order) ∈ (pay s caller orderId).2.orders ∧
      (pay s caller orderId).2.quotes = s.quotes ∧
      (pay s caller orderId).2.rfqs = s.rfqs := by
  have hnot : ¬ o.status ≠ "pending_payment" := fun hc => hc hs
  have hred : pay s caller orderId =
      (Except.ok
        { id := s.next, orderId := o.id, amount := q.price, status := "recorded",
          createdAt := s.next },
        { s with
            orders := s.orders.map
              (fun x => if x.id == o.id then { x with status := "paid" } else x),
            payments := s.payments ++
              [{ id := s.next, orderId := o.id, amount := q.price, status := "recorded",
                 createdAt := s.next }],
            next := s.next + 1 }) := by
    simp only [pay, ho]
    rw [if_neg hnot]
    simp only [hq]
  refine ⟨{ id := s.next, orderId := o.id, amount := q.price, status := "recorded",
            createdAt := s.next },
    by rw [hred], rfl, rfl, rfl, by rw [hred], by rw [hred], ?_, by rw [hred], by rw [hred]⟩
  rw [hred]
  exact List.mem_map.mpr ⟨o, List.mem_of_find?_eq_some ho, by simp⟩

/-- Witness for C4: paying the pending order 2 in state s3 records a
payment of the accepted quote's price. -/
theorem pay_pending_success_witness :
    (s3.orders.find? (fun x => x.id == 2) = some ordPend) ∧
    ordPend.status = "pending_payment" ∧
    (s3.quotes.find? (fun x => x.id == ordPend.quoteId) = some qAcc) ∧
    (∃ p : Payment, (pay s3 "buyer" 2).1 = Except.ok p ∧ p.amount = qAcc.price ∧
      p.status = "recorded") :=
  ⟨by decide, by decide, by decide, by
    obtain ⟨p, h1, h2, h3, _⟩ :=
      pay_pending_success s3 "buyer" 2 ordPend qAcc (by decide) (by decide) (by decide)
    exact ⟨p, h1, h2, h3⟩⟩

/-- C5: pay on an unresolvable order id returns NotFoundError with the
state unchanged, and pay on an order whose status is not
"pending_payment" returns ConflictError with the state unchanged (so no
Payment is created in either case). -/
theorem pay_error_cases (s : St) (caller : String) (orderId : Nat) :
    (s.orders.find? (fun x => x.id == orderId) = none →
      pay s caller orderId = (Except.error Err.notFound, s)) ∧
    (∀ o : Order, s.orders.find? (fun x => x.id == orderId) = some o →
      o.status ≠ "pending_payment" →
      pay s caller orderId = (Except.error Err.conflict, s)) := by
  constructor
  · intro hf
    simp only [pay, hf]
  · intro o hf hs
    simp only [pay, hf]
    rw [if_pos hs]

/-- Witness for C5: paying the nonexistent order 99 in s3 yields
NotFoundError; paying the already-paid order 2 in s6 yields
ConflictError. -/
theorem pay_error_cases_witness :
    (s3.orders.find? (fun x => x.id == 99) = none) ∧
    pay s3 "buyer" 99 = (Except.error Err.notFound, s3) ∧
    (s6.orders.find? (fun x => x.id == 2) = some ordPaid) ∧
    ordPaid.status ≠ "pending_payment" ∧
    pay s6 "buyer" 2 = (Except.error Err.conflict, s6) :=
  ⟨by decide, (pay_error_cases s3 "buyer" 99).1 (by decide), by decide, by decide,
    (pay_error_cases s6 "buyer" 2).2 ordPaid (by decide) (by decide)⟩

/-- C6: submit either persists exactly one new RFQ whose quantity is at
least 1, whose material is in the recognized catalog and whose
certification is in the recognized set, carrying a fresh identifier and
timestamp, or it returns ValidationError and persists nothing. -/
theorem submit_validates_or_rejects (s : St) (owner : String) (sp : RFQSpec) :
    (∃ r : RFQ,
      submit s owner sp = (Except.ok r, { s with rfqs := s.rfqs ++ [r], next := s.next + 1 }) ∧
      1 ≤ r.quantity ∧ r.material ∈ materialCatalog ∧ r.certification ∈ certificationSet ∧
      r.id = s.next ∧ r.createdAt = s.next ∧ r.owner = owner ∧
      r.material = sp.material ∧ r.quantity = sp.quantity ∧
      r.certification = sp.certification) ∨
    (submit s owner sp = (Except.error Err.validation, s) ∧
      ¬(1 ≤ sp.quantity ∧ sp.material ∈ materialCatalog ∧
        sp.certification ∈ certificationSet)) := by
  by_cases hv : 1 ≤ sp.quantity ∧ sp.material ∈ materialCatalog ∧
      sp.certification ∈ certificationSet
  · left
    refine ⟨{ id := s.next, owner := owner, material := sp.material, quantity := sp.quantity,
              tolerance := sp.tolerance, roughness := sp.roughness,
              partMarking := sp.partMarking, certification := sp.certification,
              notes := sp.notes, createdAt := s.next },
      ?_, hv.1, hv.2.1, hv.2.2, rfl, rfl, rfl, rfl, rfl, rfl⟩
    unfold submit
    rw [if_pos hv]
  · right
    refine ⟨?_, hv⟩
    unfold submit
    rw [if_neg hv]

/-- C8: a rendered Orders row offers the "Pay now" action exactly when
the order's status field reads "pending_payment", and every pay request
the view can issue targets an order that was read in that status. -/
theorem orders_pay_action_iff_pending (os : List OrderView) :
    (∀ o, o ∈ os → ((renderOrderRow o).payAction = some o.id ↔ o.status = "pending_payment")) ∧
    (∀ t, t ∈ ordersPayTargets os → ∃ o, o ∈ os ∧ o.id = t ∧ o.status = "pending_payment") := by
  constructor
  · intro o _
    unfold renderOrderRow
    by_cases hs : o.status = "pending_payment"
    · simp [hs]
    · simp [hs]
  · intro t ht
    unfold ordersPayTargets at ht
    simp only [List.mem_filterMap, List.mem_map] at ht
    obtain ⟨row, ⟨o, ho, rfl⟩, hpa⟩ := ht
    simp only [renderOrderRow] at hpa
    by_cases hs : o.status = "pending_payment"
    · simp only [hs] at hpa
      simp only [if_pos (by simp : (("pending_payment" : String) == "pending_payment") = true),
        Option.some.injEq] at hpa
      exact ⟨o, ho, hpa, hs⟩
    · rw [if_neg (by simp [hs])] at hpa
      exact absurd hpa (by simp)

/-- Witness for C8 on a concrete fetched list: the pending order offers
the action, and the single issued target is that pending order. -/
theorem orders_pay_action_iff_pending_witness :
    (owPending ∈ osSample) ∧
    ((renderOrderRow owPending).payAction = some owPending.id ↔
      owPending.status = "pending_payment") ∧
    ("o1" ∈ ordersPayTargets osSample) ∧
    (∃ o, o ∈ osSample ∧ o.id = "o1" ∧ o.status = "pending_payment") :=
  ⟨by decide, (orders_pay_action_iff_pending osSample).1 owPending (by decide), by decide,
    (orders_pay_action_iff_pending osSample).2 "o1" (by decide)⟩

/-- C9: the Offers view renders an Accept action for every fetched quote,
with the same target irrespective of the quote's status field, so the
list of quote identifiers the view can post an accept for is exactly the
whole fetched list. -/
theorem offers_accept_always_offered :
    (∀ q : QuoteView, (renderOfferRow q).acceptAction = some q.id) ∧
    (∀ q : QuoteView, ∀ hStat : String,
      (renderOfferRow { q with status := hStat }).acceptAction = some q.id) ∧
    (∀ qs : List QuoteView, offersAcceptTargets qs = qs.map (fun q => q.id)) := by
  refine ⟨fun q => rfl, fun q hStat => rfl, fun qs => ?_⟩
  unfold offersAcceptTargets
  induction qs with
  | nil => rfl
  | cons q t ih =>
    simp only [List.map_cons, List.filterMap_cons, renderOfferRow] at ih ⊢
    rw [ih]

/-- C10: the request interceptor attaches an "Authorization: Bearer"
header exactly when a token is present, with the token embedded, and
changes no other part of a client-built request configuration (which
never presets an Authorization header). -/
theorem interceptor_auth_header (token : Option String) (c : RequestConfig)
    (h : c.authorization = none) :
    ((requestInterceptor token c).authorization.isSome ↔ token.isSome) ∧
    (∀ t, token = some t →
      (requestInterceptor token c).authorization = some ("Bearer " ++ t)) ∧
    (requestInterceptor token c).url = c.url ∧
    (requestInterceptor token c).method = c.method ∧
    (requestInterceptor token c).body = c.body ∧
    (requestInterceptor token c).otherHeaders = c.otherHeaders := by
  cases token with
  | none => simp [requestInterceptor, h]
  | some t => simp [requestInterceptor]

/-- Witness for C10 at a concrete configuration and token. -/
theorem interceptor_auth_header_witness :
    cfg0.authorization = none ∧
    ((requestInterceptor (some "tok") cfg0).authorization.isSome ↔ (some "tok").isSome) ∧
    (requestInterceptor (some "tok") cfg0).authorization = some ("Bearer " ++ "tok") ∧
    (requestInterceptor (some "tok") cfg0).otherHeaders = cfg0.otherHeaders :=
  ⟨rfl, (interceptor_auth_header (some "tok") cfg0 rfl).1,
    (interceptor_auth_header (some "tok") cfg0 rfl).2.1 "tok" rfl,
    (interceptor_auth_header (some "tok") cfg0 rfl).2.2.2.2.2⟩

end Milling
